import Mathlib

/-!
Shallow embedding of the `bulb` reactive-signals library
(`src/src/signal.js`, `src/src/combinator/delay.js`,
`src/src/combinator/filter.js`) and proofs about its
mount/unmount engine, join combinators (merge, zip), and the
stateful transforms (fold, scan, delay).

Conventions of the embedding:
* A JS `Set` of subscription objects is a `List Nat` of fresh
  subscription ids in insertion order (JS `Set` iterates in
  insertion order; `add` appends, `delete` removes).
* `typeof x === 'function'` tests on the cached `_unmount` value are
  modelled by an `Option Unit` (`some ()` exactly when the stored
  value is a function).
* JS arrays with holes (as produced by `F.array(n)` and out-of-range
  index assignment in `zip`) are `List (Option α)`: `none` is a hole
  and the list length is the JS `length` property.
* A callback invocation on a possibly-missing observer property is an
  `Except Unit` computation: `Except.error ()` is the `TypeError`
  raised when the property is `undefined`.
-/

namespace Bulb

/-- Possible JS values returned by a mount function, as far as the engine
inspects them: the engine only ever asks `typeof _unmount === 'function'`
(signal.js line 68), so we classify returns as a function, a Subscription
object (what `this.subscribe(...)` yields), an array, or `undefined`. -/
inductive MountRet
  | fn
  | subscription
  | arr
  | undefinedVal
  deriving DecidableEq

/-- Whether a mount return value is a function (`typeof r === 'function'`). -/
def MountRet.isFn : MountRet → Bool
  | .fn => true
  | _ => false

/-- State of one `Signal` instance (signal.js lines 15-23):
`subs` is `this._subscriptions` (ids in insertion order), `unmountHook`
records whether `this._unmount` currently holds a function, and
`mountCount` / `unmountCount` count the invocations of the mount
function and of the stored unmount hook (the observable side effects the
spec talks about). `nextId` supplies fresh subscription identities. -/
structure SignalState where
  subs : List Nat
  unmountHook : Option Unit
  mountCount : Nat
  unmountCount : Nat
  nextId : Nat
  deriving DecidableEq

/-- A freshly constructed `Signal` (signal.js lines 20-22):
no subscriptions, `_unmount === undefined`, nothing mounted yet. -/
def SignalState.initial : SignalState :=
  { subs := [], unmountHook := none, mountCount := 0, unmountCount := 0, nextId := 0 }

/-- `Signal.prototype.subscribe` (signal.js lines 37-84), at the level of the
registry and the mount side effect. The subscription is added first
(line 74); then, if it is the first one (`size === 1`, line 77), the mount
function runs and whatever it returns is stored in `_unmount` (line 80).
`mr k` says whether the k-th mount invocation returns a function. -/
def subscribe (mr : Nat → MountRet) (st : SignalState) : SignalState × Nat :=
  let i := st.nextId
  let subs := st.subs ++ [i]
  if subs.length = 1 then
    ({ subs := subs,
       unmountHook := if (mr st.mountCount).isFn then some () else none,
       mountCount := st.mountCount + 1,
       unmountCount := st.unmountCount,
       nextId := i + 1 }, i)
  else
    ({ st with subs := subs, nextId := i + 1 }, i)

/-- The disposer closure created in `subscribe` (signal.js lines 63-71):
remove the subscription; if the registry became empty and `_unmount`
holds a function, invoke it. Note the source does NOT clear
`this._unmount` afterwards. -/
def dispose (st : SignalState) (i : Nat) : SignalState :=
  let subs := st.subs.erase i
  if subs.isEmpty && st.unmountHook.isSome then
    { st with subs := subs, unmountCount := st.unmountCount + 1 }
  else
    { st with subs := subs }

/-- Iterate `subscribe` n times (n distinct observers subscribing in turn). -/
def subscribeN (mr : Nat → MountRet) : Nat → SignalState → SignalState
  | 0, st => st
  | n + 1, st => subscribeN mr n (subscribe mr st).1

/-- Modelled from the spec: the `Subscription` class lives in
`src/subscription`, which `signal.js` requires but which is absent from
the sources. Per spec section 4.2 it "wraps an observer and a
zero-argument disposer; exposes a single operation, `unsubscribe()`,
which calls the disposer then marks itself inert so a second call is a
no-op". `sid` is the id the owning Signal registered for it. -/
structure Subscription where
  sid : Nat
  unsubscribed : Bool
  deriving DecidableEq

/-- Modelled from the spec (see `Subscription`): `unsubscribe()` calls the
disposer (the `dispose` closure of the owning Signal) the first time and
is inert afterwards. -/
def unsubscribe (p : SignalState × Subscription) : SignalState × Subscription :=
  if p.2.unsubscribed then p
  else (dispose p.1 p.2.sid, { p.2 with unsubscribed := true })

/-- An event arriving from one of the upstream signals of a join
combinator: a value from the upstream at index `i`, an error, or the
upstream's completion (merge and zip register `onComplete` without an
index, signal.js lines 323 and 354). -/
inductive UpEvent (α : Type)
  | next (i : Nat) (a : α)
  | error (e : α)
  | complete
  deriving DecidableEq

/-- Downstream emission of `merge`. -/
inductive MDown (α : Type)
  | next (a : α)
  | error (e : α)
  | complete
  deriving DecidableEq

/-- One upstream event processed by the closures of `merge`'s mount
(signal.js lines 316-324): values and errors are forwarded at once;
`onComplete` runs `if (++count > ss.length) complete()`. `m` is
`ss.length` (the number of signals merged with `this`, so there are
`m + 1` upstreams) and `count` is the current completion counter. -/
def mergeStep (m : Nat) (count : Nat) : UpEvent α → Nat × List (MDown α)
  | .next _ a => (count, [.next a])
  | .error e => (count, [.error e])
  | .complete => (count + 1, if count + 1 > m then [.complete] else [])

/-- Run `merge`'s closures over a sequence of upstream events, starting
from completion counter `count`; returns the final counter and the
concatenated downstream emissions. -/
def mergeRun (m count : Nat) : List (UpEvent α) → Nat × List (MDown α)
  | [] => (count, [])
  | e :: es =>
    ((mergeRun m (mergeStep m count e).1 es).1,
     (mergeStep m count e).2 ++ (mergeRun m (mergeStep m count e).1 es).2)

/-- Number of upstream completion events in a trace. -/
def completesIn : List (UpEvent α) → Nat
  | [] => 0
  | .complete :: es => completesIn es + 1
  | _ :: es => completesIn es

/-- Number of downstream `complete` emissions of merge. -/
def countCompleteM : List (MDown α) → Nat
  | [] => 0
  | .complete :: ds => countCompleteM ds + 1
  | _ :: ds => countCompleteM ds

/-- JS array write `as[i] = v` on an array with holes: in range it
replaces the slot, at or past the end it extends the array with holes so
that the new length is `i + 1`. -/
def jsSet (l : List (Option α)) (i : Nat) (v : α) : List (Option α) :=
  if i < l.length then l.set i (some v)
  else l ++ List.replicate (i - l.length) none ++ [some v]

/-- The mutable state of `zip`'s mount closures (signal.js lines 336-337):
`as` is the buffer (`null` encoded as `none`) and `count` the completion
counter. -/
structure ZipAcc (α : Type) where
  as : Option (List (Option α))
  count : Nat
  deriving DecidableEq

/-- Downstream emission of `zip`: a tuple is the JS array `as`, holes
included. -/
inductive ZDown (α : Type)
  | next (vs : List (Option α))
  | error (e : α)
  | complete
  deriving DecidableEq

/-- One upstream event processed by `zip`'s mount closures (signal.js
lines 339-352). `onNext(a, index)`: allocate `F.array(ss.length)` if the
buffer is `null`, write slot `index`, and emit (then reset to `null`)
when `as.length > ss.length`. `onComplete` is identical to merge's.
`m` is `ss.length`; upstream indices range over `0..m` (self is 0). -/
def zipStep (m : Nat) (st : ZipAcc α) : UpEvent α → ZipAcc α × List (ZDown α)
  | .next i a =>
    let as0 := st.as.getD (List.replicate m none)
    let as1 := jsSet as0 i a
    if as1.length > m then ({ st with as := none }, [.next as1])
    else ({ st with as := some as1 }, [])
  | .error e => (st, [.error e])
  | .complete =>
    ({ st with count := st.count + 1 },
     if st.count + 1 > m then [.complete] else [])

/-- Run `zip`'s closures over a sequence of upstream events. -/
def zipRun (m : Nat) (st : ZipAcc α) : List (UpEvent α) → ZipAcc α × List (ZDown α)
  | [] => (st, [])
  | e :: es =>
    ((zipRun m (zipStep m st e).1 es).1,
     (zipStep m st e).2 ++ (zipRun m (zipStep m st e).1 es).2)

/-- Number of downstream `complete` emissions of zip. -/
def countCompleteZ : List (ZDown α) → Nat
  | [] => 0
  | .complete :: ds => countCompleteZ ds + 1
  | _ :: ds => countCompleteZ ds

/-- State of one mounted `delay(n, s)` combinator
(src/src/combinator/delay.js lines 18-33): `idCell` is the single
`let id` variable, holding the timer id of the most recent
`setTimeout(() => emit.next(a), n)`; `pending` is the list of scheduled,
not-yet-fired timers `(id, some a)` for a delayed `next a` and
`(id, none)` for a delayed `complete` (whose `setTimeout` id the source
discards, line 27); `nextId` is the runtime's next fresh timer id. The
delay amount is the same for every timer so it is not recorded. -/
structure DelayState (α : Type) where
  idCell : Option Nat
  nextId : Nat
  pending : List (Nat × Option α)
  deriving DecidableEq

/-- The `next` closure of `delay` (delay.js lines 22-24): schedule the
delivery and overwrite `id` with the new timer id. -/
def delayOnNext (st : DelayState α) (a : α) : DelayState α :=
  { idCell := some st.nextId,
    nextId := st.nextId + 1,
    pending := st.pending ++ [(st.nextId, some a)] }

/-- The `complete` closure of `delay` (delay.js lines 26-28): schedule the
delivery; the returned timer id is discarded, `id` is left alone. -/
def delayOnComplete (st : DelayState α) : DelayState α :=
  { st with nextId := st.nextId + 1,
            pending := st.pending ++ [(st.nextId, none)] }

/-- The unmount function of `delay` (delay.js line 32):
`() => clearTimeout(id)` cancels the timer whose id is in the cell, if it
is still pending; `clearTimeout(undefined)` is a no-op. -/
def delayUnmount (st : DelayState α) : DelayState α :=
  match st.idCell with
  | none => st
  | some i => { st with pending := st.pending.filter (fun tr => tr.1 ≠ i) }

/-- Feed a trace of upstream events into a freshly mounted `delay`:
`some a` is an upstream `next a`, `none` an upstream `complete`. All
events fall within the delay window, so every scheduled timer is still
pending afterwards. -/
def delayRun (es : List (Option α)) : DelayState α :=
  es.foldl
    (fun st e => match e with
      | some a => delayOnNext st a
      | none => delayOnComplete st)
    { idCell := none, nextId := 0, pending := [] }

/-- An event delivered by a single upstream signal to a transform
combinator such as `fold`. -/
inductive SEvent (α : Type)
  | next (a : α)
  | error (e : α)
  | complete
  deriving DecidableEq

/-- Downstream emission of `fold` (`β` values out of `α` values in;
errors are forwarded verbatim). -/
inductive DEvent (α β : Type)
  | next (b : β)
  | error (e : α)
  | complete
  deriving DecidableEq

/-- One upstream event handled by the observer `fold` builds
(delay.js lines 53-65): `next b` folds into the accumulator without
emitting; errors pass through via the `{...emit}` spread; `complete`
emits the accumulator once, then completes. -/
def foldStep (f : β → α → β) (a : β) : SEvent α → β × List (DEvent α β)
  | .next b => (f a b, [])
  | .error e => (a, [.error e])
  | .complete => (a, [.next a, .complete])

/-- Run `fold`'s observer over a trace of upstream events; returns the
final accumulator and the concatenated downstream emissions. -/
def foldRun (f : β → α → β) (a : β) : List (SEvent α) → β × List (DEvent α β)
  | [] => (a, [])
  | e :: es =>
    ((foldRun f (foldStep f a e).1 es).1,
     (foldStep f a e).2 ++ (foldRun f (foldStep f a e).1 es).2)

/-- Downstream `next` values observed over one full
unmount-then-remount cycle of `fold f seed s`, traced from the sources.
Period one: the fold signal's only subscriber arrives, fold's mount
(delay.js line 54) subscribes to the upstream `s`, and the upstream
delivers the values `es1`; each runs `a = f(a, b)` (delay.js line 56) on
the binding `a` that lives in the scope of the `fold` CALL, not of the
mount. The subscriber then leaves; at signal.js line 68 the stored
`_unmount` is the Subscription that fold's mount returned (line 64), not
a function, so nothing runs: the upstream subscription survives and `a`
keeps its value. Period two: a new subscriber arrives, fold's mount runs
again and adds a SECOND upstream subscription whose closures share the
same `a`; each value in `es2` is broadcast by the upstream to both
subscriptions in insertion order, so it is folded twice. Finally the
upstream completes: both complete closures run in order, each emitting
the current accumulator downstream (delay.js line 60) before completing. -/
def foldRemountRun (f : β → α → β) (seed : β) (es1 es2 : List α) : List β :=
  let a1 := es1.foldl f seed
  let a2 := es2.foldl (fun a b => f (f a b) b) a1
  [a2, a2]

/-- Which of the three callbacks an observer object actually has
(each may be `undefined`). -/
structure ObsShape where
  hasNext : Bool
  hasError : Bool
  hasComplete : Bool
  deriving DecidableEq

/-- The argument passed to `Signal.prototype.subscribe`: a bare function
(with `args[0]` / `args[1]` possibly supplying error and complete
callbacks), an observer object, or anything that is neither. -/
inductive SubArg
  | fnArg (errArg compArg : Bool)
  | objArg (o : ObsShape)
  | otherArg
  deriving DecidableEq

/-- Observer normalization at the top of `subscribe` (signal.js lines
38-42): a bare function becomes `{ next: observer, error: args[0],
complete: args[1] }`; a non-object non-function becomes `{}`; an object
is taken as is. -/
def normalizeObserver : SubArg → ObsShape
  | .fnArg e c => { hasNext := true, hasError := e, hasComplete := c }
  | .objArg o => o
  | .otherArg => { hasNext := false, hasError := false, hasComplete := false }

/-- One broadcast pass of the engine's handlers (signal.js lines 44-60):
`for (let s of this._subscriptions) s.observer.next(value)` (and likewise
for error and complete). The property named by `has` is read and CALLED
on every subscription in order, with no existence check: if it is
`undefined` the call raises a `TypeError` (`Except.error ()`) and the
loop aborts; otherwise the result counts the deliveries made. -/
def broadcastCall (has : ObsShape → Bool) (subs : List ObsShape) : Except Unit Nat :=
  subs.foldl
    (fun acc o => acc.bind fun k =>
      if has o then Except.ok (k + 1) else Except.error ())
    (Except.ok 0)

/-- What `map`'s mount returns (signal.js lines 243-245): the arrow body
is `this.subscribe(...)`, a Subscription object. -/
def mapMountReturn : MountRet := .subscription

/-- What `filter`'s mount returns (signal.js lines 256-260): the
Subscription from `this.subscribe(...)`. -/
def filterMountReturn : MountRet := .subscription

/-- What `fold`'s mount returns (signal.js lines 273-285): the
Subscription from `this.subscribe(...)`. -/
def foldMountReturn : MountRet := .subscription

/-- What `scan`'s mount returns (signal.js lines 297-305): the
Subscription from `return this.subscribe(...)`. -/
def scanMountReturn : MountRet := .subscription

/-- What `merge`'s mount returns (signal.js lines 316-324): the arrow has
a block body with no `return`, so `undefined`. -/
def mergeMountReturn : MountRet := .undefinedVal

/-- What `zip`'s mount returns (signal.js lines 335-355): a block body
with no `return`, so `undefined`. -/
def zipMountReturn : MountRet := .undefinedVal

/-- The mount return values of the six combinators named by the spec's
frame condition. -/
def combinatorMountReturns : List MountRet :=
  [mapMountReturn, filterMountReturn, foldMountReturn,
   scanMountReturn, mergeMountReturn, zipMountReturn]

/-- Invariant carried by every reachable `DelayState`: pending timer ids
are below the id supply, the cell never points at a delayed-complete
timer (its `setTimeout` id was discarded, delay.js line 27), and the
cell's id is below the supply. -/
def delayInv (st : DelayState α) : Prop :=
  (∀ tr ∈ st.pending, tr.1 < st.nextId ∧ (tr.2 = none → st.idCell ≠ some tr.1)) ∧
  (∀ i, st.idCell = some i → i < st.nextId)

theorem subscribe_subs_eq (mr : Nat → MountRet) (st : SignalState) :
    (subscribe mr st).1.subs = st.subs ++ [st.nextId] := by
  simp only [subscribe]
  split <;> rfl

theorem subscribe_subs_ne (mr : Nat → MountRet) (st : SignalState) :
    (subscribe mr st).1.subs ≠ [] := by
  rw [subscribe_subs_eq]
  simp

theorem subscribe_mount_of_empty (mr : Nat → MountRet) (st : SignalState)
    (h : st.subs = []) :
    (subscribe mr st).1.mountCount = st.mountCount + 1 := by
  simp [subscribe, h]

theorem subscribe_mount_of_ne (mr : Nat → MountRet) (st : SignalState)
    (h : st.subs ≠ []) :
    (subscribe mr st).1.mountCount = st.mountCount := by
  rcases hs : st.subs with _ | ⟨a, l⟩
  · exact absurd hs h
  · simp [subscribe, hs]

theorem subscribeN_mount_of_ne (mr : Nat → MountRet) (n : Nat) :
    ∀ st : SignalState, st.subs ≠ [] →
      (subscribeN mr n st).mountCount = st.mountCount := by
  induction n with
  | zero => intro st _; rfl
  | succ n ih =>
    intro st h
    rw [subscribeN, ih (subscribe mr st).1 (subscribe_subs_ne mr st),
      subscribe_mount_of_ne mr st h]

/-- C1: the mount function runs exactly once on each 0-to-1
subscriber-count transition and never while the count stays positive:
starting from an empty registry (fresh or fully unsubscribed), a run of
n + 1 consecutive subscribes performs exactly one mount invocation, and
a subscribe against a nonempty registry performs none. -/
theorem c1_mount_exactly_once (mr : Nat → MountRet) (st st2 : SignalState) (n : Nat)
    (h : st.subs = []) (h2 : st2.subs ≠ []) :
    (subscribeN mr (n + 1) st).mountCount = st.mountCount + 1 ∧
    (subscribe mr st2).1.mountCount = st2.mountCount := by
  constructor
  · rw [subscribeN, subscribeN_mount_of_ne mr n (subscribe mr st).1 (subscribe_subs_ne mr st),
      subscribe_mount_of_empty mr st h]
  · exact subscribe_mount_of_ne mr st2 h2

/-- Witness for C1: three subscribes from the freshly constructed state
mount once; a subscribe against a one-subscriber state (as found right
after a remount) mounts zero further times. -/
theorem c1_witness :
    (subscribeN (fun _ => MountRet.fn) 3 SignalState.initial).mountCount =
      SignalState.initial.mountCount + 1 ∧
    (subscribe (fun _ => MountRet.fn)
      { subs := [0], unmountHook := some (), mountCount := 1,
        unmountCount := 0, nextId := 1 }).1.mountCount =
      ({ subs := [0], unmountHook := some (), mountCount := 1,
         unmountCount := 0, nextId := 1 } : SignalState).mountCount :=
  c1_mount_exactly_once (fun _ => MountRet.fn) SignalState.initial
    { subs := [0], unmountHook := some (), mountCount := 1,
      unmountCount := 0, nextId := 1 } 2 rfl (by decide)

theorem unsubscribe_idem (p : SignalState × Subscription) :
    unsubscribe (unsubscribe p) = unsubscribe p := by
  by_cases h : p.2.unsubscribed
  · simp [unsubscribe, h]
  · simp [unsubscribe, h]

/-- C4 counterexample: subscribe once to a signal whose mount returns an
unmount function, then dispose that subscription. The registry is empty
(count 0), yet `_unmount` still holds the function: the engine never
clears it (signal.js lines 67-70 call `this._unmount()` without
clearing), so the cached unmount function is NOT set only while the
subscriber count is positive. -/
theorem c4_hook_not_cleared_counterexample :
    (dispose (subscribe (fun _ => MountRet.fn) SignalState.initial).1 0).subs = [] ∧
    (dispose (subscribe (fun _ => MountRet.fn) SignalState.initial).1 0).unmountHook =
      some () := by decide

/-- C4 amended: when the registry becomes empty the stored unmount hook
is invoked if it is a function, but it is NOT cleared; a dispose that
leaves the registry nonempty invokes no unmount; and through the
Subscription guard a repeated unsubscribe performs no further unmount,
so unmount still runs at most once per reaches-0 transition. -/
theorem c4_unmount_on_empty (st st2 : SignalState) (i i2 : Nat)
    (p : SignalState × Subscription)
    (h1 : st.subs = [i]) (h2 : st.unmountHook.isSome = true)
    (h3 : st2.subs.erase i2 ≠ []) :
    ((dispose st i).unmountCount = st.unmountCount + 1 ∧
     (dispose st i).unmountHook = st.unmountHook) ∧
    (dispose st2 i2).unmountCount = st2.unmountCount ∧
    (unsubscribe (unsubscribe p)).1.unmountCount = (unsubscribe p).1.unmountCount := by
  refine ⟨⟨?_, ?_⟩, ?_, ?_⟩
  · simp [dispose, h1, h2]
  · simp [dispose, h1, h2]
  · simp [dispose, List.isEmpty_iff, h3]
  · rw [unsubscribe_idem]

/-- Witness for C4 amended: a singleton registry with a cached hook, a
two-element registry, and a concrete never-disposed Subscription pair. -/
theorem c4_witness :
    ((dispose { subs := [5], unmountHook := some (), mountCount := 1,
                unmountCount := 0, nextId := 6 } 5).unmountCount =
       ({ subs := [5], unmountHook := some (), mountCount := 1,
          unmountCount := 0, nextId := 6 } : SignalState).unmountCount + 1 ∧
     (dispose { subs := [5], unmountHook := some (), mountCount := 1,
                unmountCount := 0, nextId := 6 } 5).unmountHook =
       ({ subs := [5], unmountHook := some (), mountCount := 1,
          unmountCount := 0, nextId := 6 } : SignalState).unmountHook) ∧
    (dispose { subs := [0, 1], unmountHook := some (), mountCount := 1,
               unmountCount := 0, nextId := 2 } 0).unmountCount =
      ({ subs := [0, 1], unmountHook := some (), mountCount := 1,
         unmountCount := 0, nextId := 2 } : SignalState).unmountCount ∧
    (unsubscribe (unsubscribe (SignalState.initial, { sid := 0, unsubscribed := false }))).1.unmountCount =
      (unsubscribe (SignalState.initial, { sid := 0, unsubscribed := false })).1.unmountCount :=
  c4_unmount_on_empty
    { subs := [5], unmountHook := some (), mountCount := 1,
      unmountCount := 0, nextId := 6 }
    { subs := [0, 1], unmountHook := some (), mountCount := 1,
      unmountCount := 0, nextId := 2 }
    5 0 (SignalState.initial, { sid := 0, unsubscribed := false })
    rfl rfl (by decide)

/-- C5: calling `unsubscribe` a second time on the same Subscription is a
no-op; the owning Signal's full state (registry contents and unmount
count included) after two calls equals the state after one. The inert
flag that makes this hold is the spec-modelled part of `Subscription`
(`subscription.js` is not among the sources). -/
theorem c5_unsubscribe_idempotent (p : SignalState × Subscription) :
    unsubscribe (unsubscribe p) = unsubscribe p :=
  unsubscribe_idem p

/-- C10: none of the mount functions of map, filter, fold, scan, merge
and zip returns a function (each returns a Subscription object or
`undefined`), so after such a signal mounts no unmount hook is cached;
and a dispose on a signal with no cached hook only shrinks its own
registry and performs no unmount, leaving every upstream subscription in
place. -/
theorem c10_combinator_unmount_frame (r : MountRet) (st st3 : SignalState) (i : Nat)
    (hr : r ∈ combinatorMountReturns) (h : st.unmountHook = none)
    (h3 : st3.subs = []) :
    r.isFn = false ∧
    (dispose st i).unmountCount = st.unmountCount ∧
    (dispose st i).subs = st.subs.erase i ∧
    (subscribe (fun _ => r) st3).1.unmountHook = none := by
  have hall : ∀ x ∈ combinatorMountReturns, x.isFn = false := by decide
  refine ⟨hall r hr, ?_, ?_, ?_⟩
  · simp [dispose, h]
  · simp [dispose, h]
  · simp [subscribe, h3, hall r hr]

/-- Witness for C10: merge's mount return, a mounted-combinator state
with no cached hook, and the fresh state. -/
theorem c10_witness :
    MountRet.isFn mergeMountReturn = false ∧
    (dispose { subs := [0], unmountHook := none, mountCount := 1,
               unmountCount := 0, nextId := 1 } 0).unmountCount =
      ({ subs := [0], unmountHook := none, mountCount := 1,
         unmountCount := 0, nextId := 1 } : SignalState).unmountCount ∧
    (dispose { subs := [0], unmountHook := none, mountCount := 1,
               unmountCount := 0, nextId := 1 } 0).subs =
      ({ subs := [0], unmountHook := none, mountCount := 1,
         unmountCount := 0, nextId := 1 } : SignalState).subs.erase 0 ∧
    (subscribe (fun _ => mergeMountReturn) SignalState.initial).1.unmountHook = none :=
  c10_combinator_unmount_frame mergeMountReturn
    { subs := [0], unmountHook := none, mountCount := 1,
      unmountCount := 0, nextId := 1 }
    SignalState.initial 0 (by decide) rfl rfl

theorem countCompleteM_append (xs ys : List (MDown α)) :
    countCompleteM (xs ++ ys) = countCompleteM xs + countCompleteM ys := by
  induction xs with
  | nil => simp [countCompleteM]
  | cons d ds ih =>
    cases d with
    | next a => simp [countCompleteM, ih]
    | error e => simp [countCompleteM, ih]
    | complete =>
      simp [countCompleteM, ih]
      omega

theorem countCompleteZ_append (xs ys : List (ZDown α)) :
    countCompleteZ (xs ++ ys) = countCompleteZ xs + countCompleteZ ys := by
  induction xs with
  | nil => simp [countCompleteZ]
  | cons d ds ih =>
    cases d with
    | next vs => simp [countCompleteZ, ih]
    | error e => simp [countCompleteZ, ih]
    | complete =>
      simp [countCompleteZ, ih]
      omega

theorem mergeRun_completes (m : Nat) (es : List (UpEvent α)) :
    ∀ c, countCompleteM (mergeRun m c es).2 =
      (c + completesIn es - m) - (c - m) := by
  induction es with
  | nil =>
    intro c
    simp [mergeRun, completesIn, countCompleteM]
  | cons e es ih =>
    intro c
    cases e with
    | next i a => simp [mergeRun, mergeStep, completesIn, countCompleteM, ih]
    | error e => simp [mergeRun, mergeStep, completesIn, countCompleteM, ih]
    | complete =>
      simp only [mergeRun, mergeStep, completesIn, countCompleteM_append, ih]
      by_cases hc : c + 1 > m
      · simp [hc, countCompleteM]
        omega
      · simp [hc, countCompleteM]
        omega

theorem zipRun_completes (m : Nat) (es : List (UpEvent α)) :
    ∀ st : ZipAcc α, countCompleteZ (zipRun m st es).2 =
      (st.count + completesIn es - m) - (st.count - m) := by
  induction es with
  | nil =>
    intro st
    simp [zipRun, completesIn, countCompleteZ]
  | cons e es ih =>
    intro st
    cases e with
    | next i a =>
      simp only [zipRun, zipStep]
      by_cases hl :
          (jsSet (st.as.getD (List.replicate m none)) i a).length > m
      · simp [hl, countCompleteZ_append, countCompleteZ, completesIn, ih]
      · simp [hl, countCompleteZ_append, countCompleteZ, completesIn, ih]
    | error e =>
      simp [zipRun, zipStep, completesIn, countCompleteZ, ih]
    | complete =>
      simp only [zipRun, zipStep, completesIn, countCompleteZ_append, ih]
      by_cases hc : st.count + 1 > m
      · simp [hc, countCompleteZ]
        omega
      · simp [hc, countCompleteZ]
        omega

/-- C2 is refuted on the sources: the emission condition of `zip`
(signal.js line 344) compares the buffer's JS `length` with `ss.length`,
and the buffer is allocated one slot short (`F.array(ss.length)` for
`ss.length + 1` upstreams, line 340). First conjunct: with two upstreams
(`m = 1`), the very first value — arriving at index 1 before index 0 has
delivered anything — lands past the end of the buffer, pushes its length
to 2, and is emitted at once as `[hole, 5]`: the round is emitted with
slot 0 unfilled. Second conjunct: a second value at index 0 before the
round completes overwrites slot 0, so the held value 1 is dropped, not
held. -/
theorem c2_zip_emits_unfilled_round :
    zipStep 1 { as := none, count := 0 } (UpEvent.next 1 (5 : Nat)) =
      ({ as := none, count := 0 }, [ZDown.next [none, some 5]]) ∧
    zipStep 1 { as := some [some 1], count := 0 } (UpEvent.next 0 (2 : Nat)) =
      ({ as := some [some 2], count := 0 }, []) := by decide

/-- C3: for merge and for zip over `m + 1` upstreams, assuming each
upstream completes at most once (so the trace holds at most `m + 1`
completion events), the downstream `complete` fires exactly once when
all `m + 1` upstreams have completed and zero times otherwise; and a
step emits `complete` only while processing an upstream completion that
takes the shared counter past `m`. -/
theorem c3_join_complete_once (α : Type) (m : Nat) (es1 es2 : List (UpEvent α))
    (st : ZipAcc α) (c : Nat) (e : UpEvent α)
    (h1 : completesIn es1 ≤ m + 1) (h2 : completesIn es2 ≤ m + 1)
    (h3 : st.count = 0) (h4 : MDown.complete ∈ (mergeStep m c e).2) :
    countCompleteM (mergeRun m 0 es1).2 =
      (if completesIn es1 = m + 1 then 1 else 0) ∧
    countCompleteZ (zipRun m st es2).2 =
      (if completesIn es2 = m + 1 then 1 else 0) ∧
    (m < c + 1 ∧ e = UpEvent.complete) := by
  refine ⟨?_, ?_, ?_⟩
  · rw [mergeRun_completes]
    split <;> omega
  · rw [zipRun_completes, h3]
    split <;> omega
  · cases e with
    | next i a => simp [mergeStep] at h4
    | error e => simp [mergeStep] at h4
    | complete =>
      refine ⟨?_, rfl⟩
      by_cases hc : c + 1 > m
      · exact hc
      · simp [mergeStep, hc] at h4

/-- Witness for C3: two upstreams (`m = 1`), both complete — downstream
completes exactly once, for merge and for zip; and the step that emits
it is the second completion. -/
theorem c3_witness :
    countCompleteM (mergeRun 1 0
      [UpEvent.next 0 (10 : Nat), UpEvent.complete, UpEvent.complete]).2 =
      (if completesIn
        [UpEvent.next 0 (10 : Nat), UpEvent.complete, UpEvent.complete] = 1 + 1
       then 1 else 0) ∧
    countCompleteZ (zipRun 1 ({ as := none, count := 0 } : ZipAcc Nat)
      [UpEvent.complete, UpEvent.complete]).2 =
      (if completesIn ([UpEvent.complete, UpEvent.complete] : List (UpEvent Nat)) = 1 + 1
       then 1 else 0) ∧
    (1 < 1 + 1 ∧ (UpEvent.complete : UpEvent Nat) = UpEvent.complete) :=
  c3_join_complete_once Nat 1
    [UpEvent.next 0 10, UpEvent.complete, UpEvent.complete]
    [UpEvent.complete, UpEvent.complete]
    { as := none, count := 0 } 1 UpEvent.complete
    (by decide) (by decide) rfl (by decide)

theorem delayInv_onNext (st : DelayState α) (a : α) (h : delayInv st) :
    delayInv (delayOnNext st a) := by
  obtain ⟨hp, _⟩ := h
  constructor
  · intro tr htr
    simp only [delayOnNext, List.mem_append, List.mem_singleton] at htr
    rcases htr with htr | htr
    · obtain ⟨hlt, _⟩ := hp tr htr
      refine ⟨by simp only [delayOnNext]; omega, ?_⟩
      intro _
      simp only [delayOnNext]
      intro hcontra
      have : st.nextId = tr.1 := by
        exact Option.some.inj hcontra
      omega
    · subst htr
      simp [delayOnNext]
  · intro i hi
    simp only [delayOnNext] at hi ⊢
    have : i = st.nextId := (Option.some.inj hi).symm
    omega

theorem delayInv_onComplete (st : DelayState α) (h : delayInv st) :
    delayInv (delayOnComplete st) := by
  obtain ⟨hp, hc⟩ := h
  constructor
  · intro tr htr
    simp only [delayOnComplete, List.mem_append, List.mem_singleton] at htr
    rcases htr with htr | htr
    · obtain ⟨hlt, hnc⟩ := hp tr htr
      refine ⟨by simp only [delayOnComplete]; omega, ?_⟩
      intro h2
      simp only [delayOnComplete]
      exact hnc h2
    · subst htr
      refine ⟨by simp only [delayOnComplete]; omega, ?_⟩
      intro _
      simp only [delayOnComplete]
      intro hcontra
      have := hc st.nextId hcontra
      omega
  · intro i hi
    simp only [delayOnComplete] at hi ⊢
    have := hc i hi
    omega

theorem delayRun_inv (es : List (Option α)) : delayInv (delayRun es) := by
  have base : delayInv ({ idCell := none, nextId := 0, pending := [] } : DelayState α) := by
    constructor
    · intro tr htr
      simp at htr
    · intro i hi
      simp at hi
  rw [delayRun]
  generalize hst : ({ idCell := none, nextId := 0, pending := [] } : DelayState α) = st0
  rw [hst] at base
  clear hst
  induction es generalizing st0 with
  | nil => exact base
  | cons e es ih =>
    rw [List.foldl_cons]
    apply ih
    cases e with
    | some a => exact delayInv_onNext st0 a base
    | none => exact delayInv_onComplete st0 base

/-- C7 counterexample: `delay(n, s)` where the upstream emits the value 7
and then completes, both within the delay window, after which the delay
signal unmounts. The unmount (`() => clearTimeout(id)`, delay.js line
32) cancels only timer 0, the one for the value; the scheduled
downstream `complete` (timer 1, whose `setTimeout` id line 27 discards)
is still pending after unmount and will be delivered into the torn-down
signal — so it is false that no downstream delivery happens after
unmount. -/
theorem c7_pending_complete_survives_unmount :
    (delayUnmount (delayRun [some 7, (none : Option Nat)])).pending = [(1, none)] ∧
    (delayUnmount (delayRun [some 7, (none : Option Nat)])).pending ≠ [] := by decide

/-- C7 amended: when `delay(n, s)` unmounts it cancels at most one
pending delivery — the one whose timer id sits in the single `id` cell,
which is always the most recently scheduled `next`: every pending
delayed `complete` survives the unmount, every pending timer other than
the cell's survives, and the cell is set by a `next` (to the id of the
timer it just scheduled) and left untouched by a `complete`. -/
theorem c7_delay_unmount_partial_cancel (α : Type) (es : List (Option α))
    (tr : Nat × Option α) (a : α)
    (h1 : tr ∈ (delayRun es).pending) (h2 : tr.2 = none) :
    tr ∈ (delayUnmount (delayRun es)).pending ∧
    (∀ tr2 ∈ (delayRun es).pending, some tr2.1 ≠ (delayRun es).idCell →
      tr2 ∈ (delayUnmount (delayRun es)).pending) ∧
    (delayRun (es ++ [some a])).idCell = some (delayRun es).nextId ∧
    (delayRun (es ++ [none])).idCell = (delayRun es).idCell := by
  refine ⟨?_, ?_, ?_, ?_⟩
  · have hinv := delayRun_inv es
    obtain ⟨hp, _⟩ := hinv
    obtain ⟨_, hnc⟩ := hp tr h1
    have hcell := hnc h2
    unfold delayUnmount
    rcases hc : (delayRun es).idCell with _ | i
    · exact h1
    · simp only [List.mem_filter]
      refine ⟨h1, ?_⟩
      rw [hc] at hcell
      simp only [decide_eq_true_eq]
      intro hcontra
      exact hcell (by rw [hcontra])
  · intro tr2 h3 h4
    unfold delayUnmount
    rcases hc : (delayRun es).idCell with _ | i
    · exact h3
    · simp only [List.mem_filter]
      refine ⟨h3, ?_⟩
      rw [hc] at h4
      simp only [decide_eq_true_eq]
      intro hcontra
      exact h4 (by rw [hcontra])
  · simp [delayRun, List.foldl_append, delayOnNext]
  · simp [delayRun, List.foldl_append, delayOnComplete]

/-- Witness for C7 amended: the trace of the counterexample — timer 1
(the delayed complete) is indeed still pending after unmount. -/
theorem c7_witness :
    ((1, (none : Option Nat)) ∈
      (delayUnmount (delayRun [some 7, (none : Option Nat)])).pending) ∧
    (∀ tr2 ∈ (delayRun [some 7, (none : Option Nat)]).pending,
      some tr2.1 ≠ (delayRun [some 7, (none : Option Nat)]).idCell →
        tr2 ∈ (delayUnmount (delayRun [some 7, (none : Option Nat)])).pending) ∧
    (delayRun ([some 7, none] ++ [some 9])).idCell =
      some (delayRun [some 7, (none : Option Nat)]).nextId ∧
    (delayRun ([some 7, none] ++ [none])).idCell =
      (delayRun [some 7, (none : Option Nat)]).idCell :=
  c7_delay_unmount_partial_cancel Nat [some 7, none] (1, none) 9 (by decide) rfl

theorem foldRun_nexts (f : β → α → β) (es : List α) :
    ∀ a, foldRun f a (es.map SEvent.next ++ [SEvent.complete]) =
      (es.foldl f a, [DEvent.next (es.foldl f a), DEvent.complete]) := by
  induction es with
  | nil => intro a; rfl
  | cons b es ih =>
    intro a
    simp only [List.map_cons, List.cons_append, foldRun, foldStep, List.append_eq, ih,
      List.foldl_cons, List.nil_append]

/-- C9: while the upstream emits, `fold f seed s` emits nothing; on
upstream completion it emits the final accumulator exactly once and then
completes — for any upstream value trace, and in particular summing
1, 2, 3 from seed 0 yields the single value 6 followed by complete. -/
theorem c9_fold_emits_final_once (α β : Type) (f : β → α → β) (seed : β) (es : List α) :
    (foldRun f seed (es.map SEvent.next ++ [SEvent.complete])).2 =
      [DEvent.next (es.foldl f seed), DEvent.complete] ∧
    (foldRun Nat.add 0 ([1, 2, 3].map SEvent.next ++ [SEvent.complete])).2 =
      [DEvent.next 6, DEvent.complete] :=
  ⟨by rw [foldRun_nexts], by decide⟩

/-- C8 counterexample: `fold((a,b) => a + b, 0, s)` where the upstream
emits 1 during the first mount period, the fold signal fully unmounts,
remounts, and the upstream then completes with no further values. Were
the accumulator reset to the seed on remount, the value observed
downstream would be 0; the code observes 1 (twice, since the first
mount's upstream subscription was never disposed), so first-period state
is observable after the remount. -/
theorem c8_accumulator_persists_counterexample :
    foldRemountRun Nat.add 0 [1] [] = [1, 1] ∧
    foldRemountRun Nat.add 0 [1] [] ≠ [0] := by decide

/-- C8 amended: the accumulator of `fold` is closure-local to the
combinator CALL, not to one mount invocation, so it persists across a
full unmount/remount cycle; and because the previous mount's upstream
subscription is never disposed, each post-remount upstream value is
folded twice and the final value is emitted twice. With no post-remount
values, the value emitted after remount is exactly the fold of the
first period's values — not the seed. -/
theorem c8_fold_accumulator_persists (α β : Type) (f : β → α → β) (seed : β)
    (es1 es2 : List α) :
    foldRemountRun f seed es1 es2 =
      [es2.foldl (fun a b => f (f a b) b) (es1.foldl f seed),
       es2.foldl (fun a b => f (f a b) b) (es1.foldl f seed)] ∧
    foldRemountRun f seed es1 [] = [es1.foldl f seed, es1.foldl f seed] :=
  ⟨rfl, by simp [foldRemountRun]⟩

/-- C6 evaluation at the failing input. The normalization conjuncts hold
as claimed: a bare function becomes `{ next: fn }` and a non-object
becomes `{}` (signal.js lines 38-42). But a broadcast does NOT silently
skip a missing callback: `Signal.of(1).subscribe(x => ...)` mounts,
`complete()` runs the engine's completeHandler, which calls
`s.observer.complete()` on the callback-less observer (signal.js lines
56-60) and raises a TypeError instead of skipping — third conjunct. The
fourth conjunct shows a broadcast over observers that have the callback
delivers to each of them. -/
theorem c6_broadcast_missing_callback :
    normalizeObserver (SubArg.fnArg false false) =
      { hasNext := true, hasError := false, hasComplete := false } ∧
    normalizeObserver SubArg.otherArg =
      { hasNext := false, hasError := false, hasComplete := false } ∧
    broadcastCall (fun o => o.hasComplete)
      [normalizeObserver (SubArg.fnArg false false)] = Except.error () ∧
    broadcastCall (fun o => o.hasNext)
      [{ hasNext := true, hasError := true, hasComplete := true },
       { hasNext := true, hasError := true, hasComplete := true }] = Except.ok 2 :=
  ⟨rfl, rfl, rfl, rfl⟩

end Bulb
